import Mathlib

/-!
Verification development for the outbound-calling campaign pipeline
(call scheduling and disposition-resolution engine).

The definitions below are a shallow embedding of the Python source:
  * `app/models.py`   — the `Disposition` enumeration and `CallRecord` row shape
  * `app/webhook.py`  — `_parse_disposition_from_analysis`,
                        `_infer_disposition_from_summary`, `_ENDED_REASON_MAP`,
                        `_extract_analysis_fields`, `_handle_end_of_call`
  * `app/database.py` — `get_pending_records`, `get_record_by_id`,
                        `get_record_by_call_id`, `update_call_result`
  * `app/scheduler.py`— `_retry_eligible`, `wait_for_calling_window`,
                        `_place_single_call`, `run_batch`

Machine times are modelled as integers counting seconds; SQLite tables are
modelled as Lean lists of rows; Python exceptions are modelled with `Except`;
the cooperative-concurrency behaviour of the async placement tasks is
modelled as an explicit interleaving of the atomic segments between `await`
points (see `SchedConfig`).
-/

/- ── String helpers mirroring Python primitives ─────────────────────────
`strContains s pat` is Python's `pat in s`; `toLowerStr` / `toUpperStr` are
`str.lower()` / `str.upper()`; `stripStr` is `str.strip()`; `replaceChar`
is `str.replace(a, b)` for a single-character pattern. -/

def startsWithCL : List Char → List Char → Bool
  | [], _ => true
  | _ :: _, [] => false
  | p :: ps, c :: cs => p == c && startsWithCL ps cs

def containsCL (pat : List Char) : List Char → Bool
  | [] => pat.isEmpty
  | c :: cs => startsWithCL pat (c :: cs) || containsCL pat cs

def strContains (s pat : String) : Bool :=
  containsCL pat.data s.data

def toLowerStr (s : String) : String :=
  ⟨s.data.map Char.toLower⟩

def toUpperStr (s : String) : String :=
  ⟨s.data.map Char.toUpper⟩

def stripStr (s : String) : String :=
  ⟨((s.data.dropWhile Char.isWhitespace).reverse.dropWhile Char.isWhitespace).reverse⟩

def replaceChar (s : String) (a b : Char) : String :=
  ⟨s.data.map fun c => if c = a then b else c⟩

/- ── app/models.py : Disposition ────────────────────────────────────────
`class Disposition(str, enum.Enum)` — constructors in declaration order. -/

inductive Disposition where
  | QUALIFIED
  | PARTIALLY_QUALIFIED
  | NOT_QUALIFIED
  | ACTIVE_LOOKING
  | NOT_LOOKING
  | CALL_BACK
  | NO_ANSWER
  | WRONG_NUMBER
  | DNC
  | VOICEMAIL
  | BUSY
  | FAILED
  | PENDING
  deriving DecidableEq

/-- The `.value` string of each enum member. -/
def dispValue : Disposition → String
  | .QUALIFIED => "QUALIFIED"
  | .PARTIALLY_QUALIFIED => "PARTIALLY_QUALIFIED"
  | .NOT_QUALIFIED => "NOT_QUALIFIED"
  | .ACTIVE_LOOKING => "ACTIVE_LOOKING"
  | .NOT_LOOKING => "NOT_LOOKING"
  | .CALL_BACK => "CALL_BACK"
  | .NO_ANSWER => "NO_ANSWER"
  | .WRONG_NUMBER => "WRONG_NUMBER"
  | .DNC => "DNC"
  | .VOICEMAIL => "VOICEMAIL"
  | .BUSY => "BUSY"
  | .FAILED => "FAILED"
  | .PENDING => "PENDING"

/-- Members of `Disposition` in declaration order (Python's `for d in Disposition`). -/
def dispositionList : List Disposition :=
  [.QUALIFIED, .PARTIALLY_QUALIFIED, .NOT_QUALIFIED, .ACTIVE_LOOKING, .NOT_LOOKING,
   .CALL_BACK, .NO_ANSWER, .WRONG_NUMBER, .DNC, .VOICEMAIL, .BUSY, .FAILED, .PENDING]

/-- `Disposition(disp_str)` — succeeds exactly when the string equals some member value. -/
def fromValue (s : String) : Option Disposition :=
  dispositionList.find? fun d => dispValue d == s

/- ── app/webhook.py : analysis payload shape ────────────────────────────
The VAPI `analysis` dict: a structured block carried under either of the
two historical key names `structuredData` / `structured_data`, plus a
top-level free-text `summary`.  An absent or empty (falsy) dict is `none`. -/

structure StructuredData where
  disposition : String := ""
  summary : String := ""
  location : String := ""
  availability : String := ""
  deriving DecidableEq

structure Analysis where
  structuredData : Option StructuredData := none
  structured_data : Option StructuredData := none
  summary : String := ""
  deriving DecidableEq

/-- `analysis.get("structuredData") or analysis.get("structured_data") or {}`. -/
def getStructured (a : Analysis) : StructuredData :=
  match a.structuredData with
  | some s => s
  | none =>
    match a.structured_data with
    | some s => s
    | none => {}

/-- The normalization applied in `_parse_disposition_from_analysis`:
`.strip().upper().replace(" ", "_").replace("-", "_")`. -/
def normalizeDisp (s : String) : String :=
  replaceChar (replaceChar (toUpperStr (stripStr s)) ' ' '_') '-' '_'

/-- `_parse_disposition_from_analysis(analysis)`: exact enum match on the
normalized structured disposition string, then a fuzzy first-match scan
over the members in declaration order (substring containment either way). -/
def parseDispositionFromAnalysis (analysis : Option Analysis) : Option Disposition :=
  match analysis with
  | none => none
  | some a =>
    let structured := getStructured a
    let dispStr := normalizeDisp structured.disposition
    if dispStr = "" then none
    else
      match fromValue dispStr with
      | some d => some d
      | none =>
        dispositionList.find? fun d =>
          strContains dispStr (dispValue d) || strContains (dispValue d) dispStr

/-- `_infer_disposition_from_summary(summary)`: keyword families scanned over
the lower-cased summary, in source order. -/
def inferDispositionFromSummary (summary : String) : Disposition :=
  let s := toLowerStr summary
  if ["not looking", "not interested", "not open", "declined"].any (fun kw => strContains s kw) then
    .NOT_LOOKING
  else if ["actively looking", "open to", "interested in", "looking for"].any (fun kw => strContains s kw) then
    .ACTIVE_LOOKING
  else if ["call back", "callback", "busy", "bad time"].any (fun kw => strContains s kw) then
    .CALL_BACK
  else if ["wrong number", "wrong person"].any (fun kw => strContains s kw) then
    .WRONG_NUMBER
  else if ["remove", "do not call", "unsubscribe"].any (fun kw => strContains s kw) then
    .DNC
  else
    .NOT_QUALIFIED

/-- `_ENDED_REASON_MAP`: entries mapped to `none` are the "normal conversational
ending" reasons that defer to the summary heuristic. -/
def endedReasonMap : List (String × Option Disposition) :=
  [("customer-did-not-answer", some .NO_ANSWER),
   ("customer-busy", some .BUSY),
   ("voicemail", some .VOICEMAIL),
   ("machine-detected", some .VOICEMAIL),
   ("customer-did-not-pick-up", some .NO_ANSWER),
   ("silence-timed-out", some .NO_ANSWER),
   ("phone-call-provider-closed-websocket", some .FAILED),
   ("error", some .FAILED),
   ("pipeline-error", some .FAILED),
   ("customer-ended-call", none),
   ("assistant-ended-call", none),
   ("assistant-said-end-call-phrase", none),
   ("max-duration-reached", none)]

/-- Python `dict.get` on `endedReasonMap`: `some v` when the key is present
bound to `v`; `none` when the key is absent. -/
def lookupReason : List (String × Option Disposition) → String → Option (Option Disposition)
  | [], _ => none
  | (k, v) :: rest, key => if k = key then some v else lookupReason rest key

structure AnalysisFields where
  summary : String := ""
  location : String := ""
  availability : String := ""
  deriving DecidableEq

/-- `_extract_analysis_fields(analysis)` — structured summary falls back to the
top-level summary text (Python falsy-`or` on the empty string). -/
def extractAnalysisFields : Option Analysis → AnalysisFields
  | none => {}
  | some a =>
    let structured := getStructured a
    { summary := if structured.summary = "" then a.summary else structured.summary
      location := structured.location
      availability := structured.availability }

/-- The disposition cascade of `_handle_end_of_call` (webhook.py lines 192–209):
structured analysis wins; otherwise the ended-reason map; a key mapped to
`None` or a missing key both fall to the summary heuristic. -/
def resolveDisposition (endedReason : String) (analysis : Option Analysis) : Disposition :=
  match parseDispositionFromAnalysis analysis with
  | some d => d
  | none =>
    match lookupReason endedReasonMap endedReason with
    | some (some d) => d
    | some none => inferDispositionFromSummary (extractAnalysisFields analysis).summary
    | none => inferDispositionFromSummary (extractAnalysisFields analysis).summary

/-- The summary construction of `_handle_end_of_call` (webhook.py lines 211–214):
when the extracted summary is empty and an ended reason is known, synthesize
`"Call ended: {ended_reason}"`. -/
def buildShortSummary (endedReason : String) (analysis : Option Analysis) : String :=
  let s := (extractAnalysisFields analysis).summary
  if s = "" ∧ endedReason ≠ "" then "Call ended: " ++ endedReason else s

/- ── app/database.py : call_records table ───────────────────────────────
One row of `call_records`; `createdAt` and `lastCalledAt` are seconds. -/

structure CallRecord where
  uniqueRecordId : String := ""
  phoneE164 : String := ""
  vapiCallId : String := ""
  status : Disposition := .PENDING
  shortSummary : String := ""
  attemptCount : Nat := 0
  lastCalledAt : Option Int := none
  rawCallOutcome : String := ""
  transcript : String := ""
  recordingUrl : String := ""
  extractedLocation : String := ""
  extractedAvailability : String := ""
  createdAt : Nat := 0
  deriving DecidableEq

/-- `SELECT * FROM call_records WHERE vapi_call_id = ?` (first row). -/
def getRecordByCallId (db : List CallRecord) (callId : String) : Option CallRecord :=
  db.find? fun r => r.vapiCallId == callId

/-- `SELECT * FROM call_records WHERE unique_record_id = ?` (first row). -/
def getRecordById (db : List CallRecord) (recordId : String) : Option CallRecord :=
  db.find? fun r => r.uniqueRecordId == recordId

/-- `update_call_result`: `UPDATE call_records SET ... WHERE vapi_call_id = ?`. -/
def updateCallResult (db : List CallRecord) (vapiCallId : String) (status : Disposition)
    (shortSummary rawCallOutcome transcript recordingUrl extractedLocation extractedAvailability : String) :
    List CallRecord :=
  db.map fun r =>
    if r.vapiCallId == vapiCallId then
      { r with
        status := status
        shortSummary := shortSummary
        rawCallOutcome := rawCallOutcome
        transcript := transcript
        recordingUrl := recordingUrl
        extractedLocation := extractedLocation
        extractedAvailability := extractedAvailability }
    else r

/-- Statuses of the SQL filter `status IN ('PENDING','NO_ANSWER','BUSY','FAILED')`
(also the retryable set checked by `_place_single_call`'s idempotency guard). -/
def retryableStatus : Disposition → Bool
  | .PENDING => true
  | .NO_ANSWER => true
  | .BUSY => true
  | .FAILED => true
  | _ => false

/-- `ORDER BY created_at ASC` comparison. -/
def createdLe (a b : CallRecord) : Prop :=
  a.createdAt ≤ b.createdAt

instance : DecidableRel createdLe := fun a b => Nat.decLe a.createdAt b.createdAt

instance : IsTotal CallRecord createdLe := ⟨fun a b => Nat.le_total a.createdAt b.createdAt⟩

instance : IsTrans CallRecord createdLe := ⟨fun _ _ _ h1 h2 => Nat.le_trans h1 h2⟩

/-- `get_pending_records(limit)`: the retryable-status filter with the
hard-coded ceiling `attempt_count < 3` (database.py line 104, literal `3`
annotated "max_retries + 1"), ordered by `created_at` ascending, limited. -/
def getPendingRecords (db : List CallRecord) (limit : Nat) : List CallRecord :=
  (List.insertionSort createdLe
    (db.filter fun r => retryableStatus r.status && decide (r.attemptCount < 3))).take limit

/- ── app/webhook.py : _handle_end_of_call ───────────────────────────────
The end-of-call payload fields the handler reads.  The recording URL and
the analysis are each taken from the message level, falling back to the
call level (Python falsy-`or`). -/

structure EndOfCallPayload where
  callId : String := ""
  metadataUniqueRecordId : String := ""
  endedReason : String := ""
  transcript : String := ""
  messageRecordingUrl : String := ""
  callRecordingUrl : String := ""
  messageAnalysis : Option Analysis := none
  callAnalysis : Option Analysis := none
  deriving DecidableEq

/-- `_handle_end_of_call(payload, db)` as a store transformer: missing call id
drops the event; the record is looked up by provider call id with a fallback
to `metadata.unique_record_id`; when found, `update_call_result` is invoked
keyed on the provider call id. -/
def handleEndOfCall (p : EndOfCallPayload) (db : List CallRecord) : List CallRecord :=
  if p.callId = "" then db
  else
    let record :=
      match getRecordByCallId db p.callId with
      | some r => some r
      | none =>
        if p.metadataUniqueRecordId ≠ "" then getRecordById db p.metadataUniqueRecordId
        else none
    match record with
    | none => db
    | some _ =>
      let analysis :=
        match p.messageAnalysis with
        | some a => some a
        | none => p.callAnalysis
      let recordingUrl :=
        if p.messageRecordingUrl = "" then p.callRecordingUrl else p.messageRecordingUrl
      let fields := extractAnalysisFields analysis
      let disposition := resolveDisposition p.endedReason analysis
      let shortSummary := buildShortSummary p.endedReason analysis
      updateCallResult db p.callId disposition shortSummary p.endedReason p.transcript
        recordingUrl fields.location fields.availability

/- ── app/scheduler.py : _retry_eligible ─────────────────────────────────
Times in seconds; `timedelta(minutes=retry_delay_minutes)` is `delay * 60`. -/

def retryEligible (attemptCount maxRetries : Nat) (lastCalledAt : Option Int)
    (now : Int) (retryDelayMinutes : Nat) : Bool :=
  if attemptCount = 0 then true
  else if maxRetries < attemptCount then false
  else
    match lastCalledAt with
    | none => true
    | some t => decide ((retryDelayMinutes : Int) * 60 ≤ now - t)

/- ── app/scheduler.py : wait_for_calling_window ─────────────────────────
A wall-clock instant is `day * 86400 + tod` seconds with `tod` the local
time of day; the window bounds are seconds since local midnight. -/

def inCallingWindow (windowStart windowEnd tod : Int) : Bool :=
  decide (windowStart ≤ tod) && decide (tod ≤ windowEnd)

/-- The next window-open instant computed by `wait_for_calling_window`:
tomorrow's start when today's window has already closed, else today's start. -/
def nextOpenInstant (windowStart windowEnd day tod : Int) : Int :=
  if windowEnd ≤ tod then (day + 1) * 86400 + windowStart
  else day * 86400 + windowStart

/-- `wait_seconds = (next_open - now).total_seconds()`. -/
def waitSecondsFor (windowStart windowEnd day tod : Int) : Int :=
  nextOpenInstant windowStart windowEnd day tod - (day * 86400 + tod)

/-- The duration of one sleep: `asyncio.sleep(min(wait_seconds + 5, 300))`. -/
def sleepSeconds (waitSeconds : Int) : Int :=
  min (waitSeconds + 5) 300

/- ── app/scheduler.py : _place_single_call / run_batch ──────────────────
Per-record effects are oracles: `Except String α` models an awaited call
that either returns or raises.  `fresh` is the status of the re-fetched
record (`none` = record missing). -/

structure RecordOracle where
  windowOkPre : Bool := true
  retryOk : Bool := true
  windowOk : Bool := true
  fresh : Except String (Option Disposition) := .ok (some .PENDING)
  place : Except String String := .ok ""
  markStarted : Except String Unit := .ok ()
  logPlaced : Except String Unit := .ok ()
  logError : Except String Unit := .ok ()

structure BatchStats where
  placed : Nat := 0
  skippedWindow : Nat := 0
  skippedThrottle : Nat := 0
  errors : Nat := 0
  deriving DecidableEq

/-- `_place_single_call`: the whole body runs inside `try`; any raise reaches
the blanket `except Exception` handler, which awaits `log_run_event`
(outside any try — its own raise propagates) and then counts an error.
Returns the updated stats and hourly counter, or the propagated exception. -/
def placeSingleCall (cap hour : Nat) (o : RecordOracle) (stats : BatchStats) :
    Except String (BatchStats × Nat) :=
  let tryResult : Except String (BatchStats × Nat) :=
    if o.windowOk = false then
      .ok ({ stats with skippedWindow := stats.skippedWindow + 1 }, hour)
    else if cap ≤ hour then
      .ok ({ stats with skippedThrottle := stats.skippedThrottle + 1 }, hour)
    else
      match o.fresh with
      | .error e => .error e
      | .ok freshStatus =>
        if (match freshStatus with
            | some st => !retryableStatus st
            | none => false) then
          .ok (stats, hour)
        else
          match o.place with
          | .error e => .error e
          | .ok _vapiCallId =>
            match o.markStarted with
            | .error e => .error e
            | .ok _ =>
              match o.logPlaced with
              | .error e => .error e
              | .ok _ => .ok ({ stats with placed := stats.placed + 1 }, hour + 1)
  match tryResult with
  | .ok r => .ok r
  | .error _ =>
    match o.logError with
    | .error e2 => .error e2
    | .ok _ => .ok ({ stats with errors := stats.errors + 1 }, hour)

/-- The pre-filter loop of `run_batch` (lines 81–102): daily cap, hourly cap,
window, retry eligibility — counters are frozen during the loop because the
placement tasks only run afterwards (`asyncio.gather` after the loop). -/
def preFilterBatch (cap dayCap hour day : Nat) (stats : BatchStats) :
    List RecordOracle → (List RecordOracle × BatchStats)
  | [] => ([], stats)
  | o :: rest =>
    if dayCap ≤ day then
      preFilterBatch cap dayCap hour day
        { stats with skippedThrottle := stats.skippedThrottle + 1 } rest
    else if cap ≤ hour then
      preFilterBatch cap dayCap hour day
        { stats with skippedThrottle := stats.skippedThrottle + 1 } rest
    else if o.windowOkPre = false then
      preFilterBatch cap dayCap hour day
        { stats with skippedWindow := stats.skippedWindow + 1 } rest
    else if o.retryOk = false then
      preFilterBatch cap dayCap hour day
        { stats with skippedThrottle := stats.skippedThrottle + 1 } rest
    else
      let (tasks, stats') := preFilterBatch cap dayCap hour day stats rest
      (o :: tasks, stats')

/-- The gathered placement tasks; an exception propagating out of any task
propagates out of `asyncio.gather` and hence out of `run_batch`. -/
def runTasks (cap : Nat) : List RecordOracle → Nat → BatchStats → Except String (BatchStats × Nat)
  | [], hour, stats => .ok (stats, hour)
  | o :: rest, hour, stats =>
    match placeSingleCall cap hour o stats with
    | .error e => .error e
    | .ok (stats', hour') => runTasks cap rest hour' stats'

/-- `run_batch`: `_refresh_counters` and `get_pending_records` are awaited
before any try block — a store error there propagates to the caller. -/
def runBatch (refreshCounters : Except String (Nat × Nat))
    (getPending : Except String (List RecordOracle)) (cap dayCap : Nat) :
    Except String BatchStats :=
  match refreshCounters with
  | .error e => .error e
  | .ok (hour, day) =>
    match getPending with
    | .error e => .error e
    | .ok records =>
      let (tasks, stats) := preFilterBatch cap dayCap hour day {} records
      match runTasks cap tasks hour stats with
      | .error e => .error e
      | .ok (finalStats, _) => .ok finalStats

/- ── Interleaving model of concurrent `_place_single_call` tasks ────────
Code between `await` points runs atomically under asyncio.  For the hourly
cap the relevant atomic segments of each task are:
  pc 0: `async with self._sem` — acquire the semaphore;
  pc 1: the synchronous stretch from the hourly-cap check up to the
        suspension inside `await self.vapi.place_call(...)` — on passing
        the check the call is placed (counted in `placed`); on failing it
        the task returns and releases the semaphore;
  pc 2: the tail after the awaited store writes —
        `self._calls_this_hour += 1` — then release the semaphore;
  pc 3: finished.
A schedule is the list of task indices in the order the event loop lets
them run one enabled segment each. -/

structure SchedConfig where
  tasks : List Nat
  sem : Nat
  counter : Nat
  placed : Nat
  deriving DecidableEq

def stepTask (cap : Nat) (c : SchedConfig) (i : Nat) : SchedConfig :=
  match c.tasks[i]? with
  | none => c
  | some pc =>
    if pc = 0 then
      if c.sem = 0 then c
      else { c with tasks := c.tasks.set i 1, sem := c.sem - 1 }
    else if pc = 1 then
      if c.counter < cap then
        { c with tasks := c.tasks.set i 2, placed := c.placed + 1 }
      else
        { c with tasks := c.tasks.set i 3, sem := c.sem + 1 }
    else if pc = 2 then
      { c with tasks := c.tasks.set i 3, sem := c.sem + 1, counter := c.counter + 1 }
    else c

def runSched (cap : Nat) (c : SchedConfig) : List Nat → SchedConfig
  | [] => c
  | i :: rest => runSched cap (stepTask cap c i) rest

/-- A fresh batch of `n` placement tasks behind a semaphore of `sem` permits,
hourly counter and placement count at zero. -/
def initSched (sem n : Nat) : SchedConfig :=
  ⟨List.replicate n 0, sem, 0, 0⟩

/- ── Concrete fixtures used by the claim theorems ───────────────────────── -/

/-- Summary text from the spec's heuristic-precedence example. -/
def sum8 : String := "Candidate said they are not looking for new roles"

/-- An analysis whose structured disposition says `ACTIVE_LOOKING` while its
own summary carries strong negation language. -/
def a1 : Analysis :=
  { structuredData :=
      some { disposition := "ACTIVE_LOOKING", summary := "Candidate is not interested in new roles" } }

def db1 : List CallRecord :=
  [{ uniqueRecordId := "R1", phoneE164 := "+447700900001", vapiCallId := "call-1" }]

def p1 : EndOfCallPayload :=
  { callId := "call-1", endedReason := "customer-ended-call", messageAnalysis := some a1 }

/-- A store whose only record has never been called (`vapi_call_id` empty). -/
def db2 : List CallRecord :=
  [{ uniqueRecordId := "R1", phoneE164 := "+447700900001", vapiCallId := "" }]

/-- An event whose provider call id matches nothing, but whose metadata
correlation id matches the stored record. -/
def p2 : EndOfCallPayload :=
  { callId := "call-404", metadataUniqueRecordId := "R1", endedReason := "customer-did-not-answer" }

/-- A pending record already attempted twice. -/
def rec3 : CallRecord :=
  { uniqueRecordId := "R9", phoneE164 := "+447700900009", status := .PENDING, attemptCount := 2 }

def db3 : List CallRecord :=
  [{ uniqueRecordId := "R3", phoneE164 := "+447700900003", vapiCallId := "call-3" }]

/-- A normal conversational ending with a completely empty analysis. -/
def p3 : EndOfCallPayload :=
  { callId := "call-3", endedReason := "customer-ended-call" }

/-- A per-record run in which the store raises inside `mark_call_started`. -/
def o5 : RecordOracle :=
  { place := .ok "vapi-1", markStarted := .error "store unavailable" }

/-- Same, but the error-logging store call fails as well. -/
def o5b : RecordOracle :=
  { place := .ok "vapi-1", markStarted := .error "store unavailable", logError := .error "store still down" }

/- ── Counting helpers for the interleaving model ─────────────────────────── -/

def count2 (ts : List Nat) : Nat := ts.countP fun pc => pc == 2

def countActive (ts : List Nat) : Nat := ts.countP fun pc => pc == 1 || pc == 2

/-- The scheduler invariant maintained by every step when the semaphore has a
single permit: the permit is either free or held by the unique in-flight
task; every placement not yet counted in the hourly counter corresponds to a
task at pc 2, which passed its check while `counter < cap`. -/
def SchedInv (cap : Nat) (c : SchedConfig) : Prop :=
  c.sem + countActive c.tasks = 1 ∧
  c.placed = c.counter + count2 c.tasks ∧
  (0 < count2 c.tasks → c.counter < cap) ∧
  c.counter ≤ cap

/- ── Helper lemmas ──────────────────────────────────────────────────────── -/

lemma countP_set_eq (p : Nat → Bool) :
    ∀ (l : List Nat) (i a b : Nat), l[i]? = some a →
      (l.set i b).countP p + (if p a then 1 else 0) = l.countP p + (if p b then 1 else 0) := by
  intro l
  induction l with
  | nil => intro i a b h; simp at h
  | cons c cs ih =>
    intro i a b h
    cases i with
    | zero =>
      simp only [List.getElem?_cons_zero, Option.some.injEq] at h
      subst h
      simp only [List.set_cons_zero, List.countP_cons]
      omega
    | succ j =>
      simp only [List.getElem?_cons_succ] at h
      have hj := ih j a b h
      simp only [List.set_cons_succ, List.countP_cons]
      omega

lemma countP_pos_of_get (p : Nat → Bool) :
    ∀ (l : List Nat) (i a : Nat), l[i]? = some a → p a = true → 0 < l.countP p := by
  intro l
  induction l with
  | nil => intro i a h; simp at h
  | cons c cs ih =>
    intro i a h hp
    cases i with
    | zero =>
      simp only [List.getElem?_cons_zero, Option.some.injEq] at h
      subst h
      simp [List.countP_cons, hp]
    | succ j =>
      simp only [List.getElem?_cons_succ] at h
      have := ih j a h hp
      simp only [List.countP_cons]
      omega

lemma countP_lt_of_get (p q : Nat → Bool) (mono : ∀ x, p x = true → q x = true) :
    ∀ (l : List Nat) (i a : Nat), l[i]? = some a → p a = false → q a = true →
      l.countP p < l.countP q := by
  intro l
  induction l with
  | nil => intro i a h; simp at h
  | cons c cs ih =>
    intro i a h hp hq
    cases i with
    | zero =>
      simp only [List.getElem?_cons_zero, Option.some.injEq] at h
      subst h
      have hmono : cs.countP p ≤ cs.countP q :=
        List.countP_mono_left fun x _ hx => mono x hx
      simp [List.countP_cons, hp, hq]
      omega
    | succ j =>
      simp only [List.getElem?_cons_succ] at h
      have hj := ih j a h hp hq
      simp only [List.countP_cons]
      by_cases hpc : p c = true
      · have hqc := mono c hpc
        simp [hpc, hqc]
        omega
      · simp only [Bool.not_eq_true] at hpc
        by_cases hqc : q c = true <;> simp [hpc, hqc] <;> omega

lemma count2_le_countActive (ts : List Nat) : count2 ts ≤ countActive ts := by
  unfold count2 countActive
  exact List.countP_mono_left fun x _ hx => by rw [hx]; exact Bool.or_true _

lemma schedInv_init (cap n : Nat) : SchedInv cap (initSched 1 n) := by
  have hz : ∀ p : Nat → Bool, p 0 = false → (List.replicate n 0).countP p = 0 := by
    intro p hp
    refine List.countP_eq_zero.mpr fun a ha => ?_
    rw [List.eq_of_mem_replicate ha, hp]
    exact Bool.false_ne_true
  refine ⟨?_, ?_, ?_, ?_⟩
  · show 1 + countActive (List.replicate n 0) = 1
    unfold countActive
    rw [hz _ rfl]
  · show 0 = 0 + count2 (List.replicate n 0)
    unfold count2
    rw [hz _ rfl]
  · intro hpos
    exfalso
    unfold count2 initSched at hpos
    rw [hz _ rfl] at hpos
    exact Nat.lt_irrefl 0 hpos
  · exact Nat.zero_le cap

lemma schedInv_step (cap : Nat) (c : SchedConfig) (i : Nat) (h : SchedInv cap c) :
    SchedInv cap (stepTask cap c i) := by
  obtain ⟨h1, h2, h3, h4⟩ := h
  unfold countActive at h1
  unfold count2 at h2 h3
  unfold SchedInv count2 countActive
  unfold stepTask
  cases hget : c.tasks[i]? with
  | none => exact ⟨h1, h2, h3, h4⟩
  | some pc =>
    dsimp only
    have hc2A := count2_le_countActive c.tasks
    unfold count2 countActive at hc2A
    by_cases hp0 : pc = 0
    · subst hp0
      rw [if_pos rfl]
      by_cases hs : c.sem = 0
      · rw [if_pos hs]; exact ⟨h1, h2, h3, h4⟩
      · rw [if_neg hs]
        have e2 := countP_set_eq (fun pc => pc == 2) c.tasks i 0 1 hget
        have eA := countP_set_eq (fun pc => pc == 1 || pc == 2) c.tasks i 0 1 hget
        simp at e2 eA
        refine ⟨?_, ?_, ?_, ?_⟩
        · dsimp only; omega
        · dsimp only; omega
        · dsimp only; intro hp; omega
        · exact h4
    · rw [if_neg hp0]
      by_cases hp1 : pc = 1
      · subst hp1
        rw [if_pos rfl]
        have hposA := countP_pos_of_get (fun pc => pc == 1 || pc == 2) c.tasks i 1 hget rfl
        have hlt := countP_lt_of_get (fun pc => pc == 2) (fun pc => pc == 1 || pc == 2)
          (fun x hx => by dsimp only at hx ⊢; rw [hx]; exact Bool.or_true _) c.tasks i 1 hget rfl rfl
        by_cases hc : c.counter < cap
        · rw [if_pos hc]
          have e2 := countP_set_eq (fun pc => pc == 2) c.tasks i 1 2 hget
          have eA := countP_set_eq (fun pc => pc == 1 || pc == 2) c.tasks i 1 2 hget
          simp at e2 eA
          refine ⟨?_, ?_, ?_, ?_⟩
          · dsimp only; omega
          · dsimp only; omega
          · dsimp only; intro hp; omega
          · exact h4
        · rw [if_neg hc]
          have e2 := countP_set_eq (fun pc => pc == 2) c.tasks i 1 3 hget
          have eA := countP_set_eq (fun pc => pc == 1 || pc == 2) c.tasks i 1 3 hget
          simp at e2 eA
          refine ⟨?_, ?_, ?_, ?_⟩
          · dsimp only; omega
          · dsimp only; omega
          · dsimp only; intro hp; omega
          · exact h4
      · rw [if_neg hp1]
        by_cases hp2 : pc = 2
        · subst hp2
          rw [if_pos rfl]
          have hpos2 := countP_pos_of_get (fun pc => pc == 2) c.tasks i 2 hget rfl
          have hposA := countP_pos_of_get (fun pc => pc == 1 || pc == 2) c.tasks i 2 hget rfl
          have hcc := h3 hpos2
          have e2 := countP_set_eq (fun pc => pc == 2) c.tasks i 2 3 hget
          have eA := countP_set_eq (fun pc => pc == 1 || pc == 2) c.tasks i 2 3 hget
          simp at e2 eA
          refine ⟨?_, ?_, ?_, ?_⟩
          · dsimp only; omega
          · dsimp only; omega
          · dsimp only; intro hp; omega
          · dsimp only; omega
        · rw [if_neg hp2]
          exact ⟨h1, h2, h3, h4⟩

lemma schedInv_run (cap : Nat) (sched : List Nat) :
    ∀ c : SchedConfig, SchedInv cap c → SchedInv cap (runSched cap c sched) := by
  induction sched with
  | nil => intro c h; exact h
  | cons i rest ih => intro c h; exact ih _ (schedInv_step cap c i h)

lemma placed_le_of_schedInv (cap : Nat) (c : SchedConfig) (h : SchedInv cap c) :
    c.placed ≤ cap := by
  obtain ⟨h1, h2, h3, h4⟩ := h
  have hc2A := count2_le_countActive c.tasks
  by_cases h0 : 0 < count2 c.tasks
  · have := h3 h0
    omega
  · omega

/- ── Claim theorems ─────────────────────────────────────────────────────── -/

/-- Claim C1, counterexample: an end-of-call event whose structured analysis
says `ACTIVE_LOOKING` while its own summary contains "not interested" is
stored as `ACTIVE_LOOKING`, not `NOT_LOOKING` — the cross-check override the
spec describes does not exist in `_handle_end_of_call`. -/
theorem cross_check_counterexample :
    parseDispositionFromAnalysis (some a1) = some .ACTIVE_LOOKING ∧
    strContains (toLowerStr (extractAnalysisFields (some a1)).summary) "not interested" = true ∧
    (handleEndOfCall p1 db1).map (fun r => r.status) = [Disposition.ACTIVE_LOOKING] ∧
    ¬ (Disposition.ACTIVE_LOOKING = .NOT_LOOKING) := by decide

/-- Claim C1, amended: whatever disposition the structured-analysis phase
settles is final — `_handle_end_of_call` applies no textual cross-check
against the summary, so an `ACTIVE_LOOKING` structured disposition is stored
unchanged even when the summary carries strong negation language. -/
theorem no_override_after_cascade :
    (∀ (endedReason : String) (analysis : Option Analysis) (d : Disposition),
        parseDispositionFromAnalysis analysis = some d →
        resolveDisposition endedReason analysis = d) ∧
    (handleEndOfCall p1 db1).map (fun r => r.status) = [Disposition.ACTIVE_LOOKING] := by
  constructor
  · intro endedReason analysis d h
    unfold resolveDisposition
    rw [h]
  · decide

/-- Claim C1, witness for the amended theorem at the spec's own example. -/
theorem no_override_witness :
    resolveDisposition "customer-ended-call" (some a1) = .ACTIVE_LOOKING :=
  no_override_after_cascade.1 "customer-ended-call" (some a1) .ACTIVE_LOOKING (by decide)

/-- Claim C2: in the metadata-fallback path the record is found by
`unique_record_id`, but `update_call_result` updates `WHERE vapi_call_id = ?`
with the provider call id that matched no row — so the found record is left
completely unchanged (status still `PENDING`, no result fields), while the
resolution itself would have produced `NO_ANSWER`. -/
theorem fallback_update_lost :
    getRecordByCallId db2 "call-404" = none ∧
    getRecordById db2 "R1" =
      some { uniqueRecordId := "R1", phoneE164 := "+447700900001", vapiCallId := "" } ∧
    resolveDisposition "customer-did-not-answer" none = .NO_ANSWER ∧
    handleEndOfCall p2 db2 = db2 := by decide

/-- Claim C3, counterexample: with `max_retries` configured to 1 (a legal
value), a `PENDING` record on its third attempt (`attempt_count = 2 > 1`) is
still returned by `get_pending_records`, because the query hard-codes the
ceiling `attempt_count < 3` instead of using the configured retry ceiling. -/
theorem pending_query_counterexample :
    1 < rec3.attemptCount ∧ getPendingRecords [rec3] 10 = [rec3] := by decide

/-- Claim C3, amended: the pending query filters by the fixed ceiling
`attempt_count < 3` (the default `max_retries + 1`) and the retryable status
set, returning rows of the store ordered oldest-created-first. -/
theorem pending_query_spec (db : List CallRecord) (limit : Nat) :
    (∀ r ∈ getPendingRecords db limit,
        retryableStatus r.status = true ∧ r.attemptCount < 3 ∧ r ∈ db) ∧
    List.Sorted createdLe (getPendingRecords db limit) := by
  constructor
  · intro r hr
    have h1 : r ∈ List.insertionSort createdLe
        (db.filter fun x => retryableStatus x.status && decide (x.attemptCount < 3)) :=
      List.mem_of_mem_take hr
    have h2 : r ∈ db.filter fun x => retryableStatus x.status && decide (x.attemptCount < 3) :=
      (List.perm_insertionSort createdLe _).mem_iff.mp h1
    obtain ⟨hdb, hcond⟩ := List.mem_filter.mp h2
    rw [Bool.and_eq_true] at hcond
    exact ⟨hcond.1, of_decide_eq_true hcond.2, hdb⟩
  · exact List.Pairwise.sublist (List.take_sublist limit _)
      (List.sorted_insertionSort createdLe _)

/-- Claim C3, witness for the amended theorem at a concrete store. -/
theorem pending_query_witness :
    retryableStatus rec3.status = true ∧ rec3.attemptCount < 3 ∧ rec3 ∈ [rec3] :=
  (pending_query_spec [rec3] 10).1 rec3 (by decide)

/-- Claim C4, counterexample: two concurrent placements under an hourly cap
of 1 with a semaphore of 2 permits can both pass the hourly check before
either increments the counter (the check and the increment are separated by
`await` suspension points), yielding 2 accepted placements in the hour. -/
theorem hourly_cap_counterexample :
    (runSched 1 (initSched 2 2) [0, 1, 0, 1]).placed = 2 ∧
    1 < (runSched 1 (initSched 2 2) [0, 1, 0, 1]).placed := by decide

/-- Claim C4, amended: when the concurrency limiter has a single permit, the
check-increment critical section is serialized and no interleaving of any
number of placement tasks ever accepts more than `cap` placements. -/
theorem hourly_cap_serialized (cap n : Nat) (sched : List Nat) :
    (runSched cap (initSched 1 n) sched).placed ≤ cap :=
  placed_le_of_schedInv cap _ (schedInv_run cap sched _ (schedInv_init cap n))

/-- Claim C5, counterexample: a store error raised by `mark_call_started`
inside a per-record placement is caught by the blanket `except Exception`
handler and converted to an `errors` count — `run_batch` returns normally
instead of propagating the store failure. -/
theorem store_error_swallowed :
    o5.markStarted = .error "store unavailable" ∧
    runBatch (.ok (0, 0)) (.ok [o5]) 50 200 = .ok { errors := 1 } := ⟨rfl, rfl⟩

/-- Claim C5, amended: a store error inside a per-record placement is caught
and counted under `errors` (propagating only when the error-logging store
call itself fails), while store errors in `run_batch`'s own awaited calls
(`get_pending_records`) do propagate and abort the batch. -/
theorem store_error_handling_spec :
    (∀ (cap hour : Nat) (o : RecordOracle) (stats : BatchStats) (e pid : String) (st : Disposition),
        o.windowOk = true → hour < cap → o.fresh = .ok (some st) → retryableStatus st = true →
        o.place = .ok pid → o.markStarted = .error e → o.logError = .ok () →
        placeSingleCall cap hour o stats = .ok ({ stats with errors := stats.errors + 1 }, hour)) ∧
    (∀ (cap hour : Nat) (o : RecordOracle) (stats : BatchStats) (e e2 pid : String) (st : Disposition),
        o.windowOk = true → hour < cap → o.fresh = .ok (some st) → retryableStatus st = true →
        o.place = .ok pid → o.markStarted = .error e → o.logError = .error e2 →
        placeSingleCall cap hour o stats = .error e2) ∧
    (∀ (e : String) (hour day cap dayCap : Nat),
        runBatch (.ok (hour, day)) (.error e) cap dayCap = .error e) := by
  refine ⟨?_, ?_, ?_⟩
  · intro cap hour o stats e pid st hwin hcap hfresh hret hplace hmark hlog
    have hnc : ¬ cap ≤ hour := by omega
    simp [placeSingleCall, hwin, hfresh, hplace, hmark, hlog, hret, hnc]
  · intro cap hour o stats e e2 pid st hwin hcap hfresh hret hplace hmark hlog
    have hnc : ¬ cap ≤ hour := by omega
    simp [placeSingleCall, hwin, hfresh, hplace, hmark, hlog, hret, hnc]
  · intro e hour day cap dayCap
    rfl

/-- Claim C5, witness for the amended theorem at concrete oracles. -/
theorem store_error_handling_witness :
    placeSingleCall 50 0 o5 {} = .ok ({ errors := 1 }, 0) ∧
    placeSingleCall 50 0 o5b {} = .error "store still down" ∧
    runBatch (.ok (0, 0)) (.error "db down") 50 200 = .error "db down" :=
  ⟨store_error_handling_spec.1 50 0 o5 {} "store unavailable" "vapi-1" .PENDING rfl
      (by decide) rfl rfl rfl rfl rfl,
   store_error_handling_spec.2.1 50 0 o5b {} "store unavailable" "store still down" "vapi-1"
      .PENDING rfl (by decide) rfl rfl rfl rfl rfl,
   store_error_handling_spec.2.2 "db down" 0 0 50 200⟩

/-- Claim C6: `_retry_eligible` is true at `attempt_count = 0`, false above
the retry ceiling, and for a previously-attempted record within the ceiling
whose last attempt was at `t` it is true exactly when the current time has
reached `t + retry_delay_minutes` (boundary inclusive). -/
theorem retry_eligible_spec (maxRetries retryDelayMinutes : Nat) (now : Int) :
    (∀ last, retryEligible 0 maxRetries last now retryDelayMinutes = true) ∧
    (∀ (attemptCount : Nat) (last : Option Int), maxRetries < attemptCount →
        retryEligible attemptCount maxRetries last now retryDelayMinutes = false) ∧
    (∀ (attemptCount : Nat) (t : Int), attemptCount ≠ 0 → attemptCount ≤ maxRetries →
        (retryEligible attemptCount maxRetries (some t) now retryDelayMinutes = true ↔
          t + (retryDelayMinutes : Int) * 60 ≤ now)) := by
  refine ⟨?_, ?_, ?_⟩
  · intro last; rfl
  · intro attemptCount last hlt
    unfold retryEligible
    rw [if_neg (by omega : ¬ attemptCount = 0), if_pos hlt]
  · intro attemptCount t hne hle
    unfold retryEligible
    rw [if_neg hne, if_neg (by omega : ¬ maxRetries < attemptCount)]
    dsimp only
    simp only [decide_eq_true_eq]
    omega

/-- Claim C6, witness: all three branches at concrete inputs, including the
boundary instant `t + retry_delay_minutes` itself. -/
theorem retry_eligible_witness :
    retryEligible 0 2 none 0 60 = true ∧
    retryEligible 3 2 (some 0) 1000000 60 = false ∧
    retryEligible 1 2 (some 3600) 3660 1 = true :=
  ⟨(retry_eligible_spec 2 60 0).1 none,
   (retry_eligible_spec 2 60 1000000).2.1 3 (some 0) (by decide),
   ((retry_eligible_spec 2 1 3660).2.2 1 3600 (by decide) (by decide)).mpr (by decide)⟩

/-- Claim C7, counterexample: with a completely empty analysis and
`endedReason = "customer-ended-call"`, the stored `short_summary` is the
synthesized text `"Call ended: customer-ended-call"`, not absent — the
synthesis is unconditional on the defer mapping. -/
theorem defer_summary_counterexample :
    (handleEndOfCall p3 db3).map (fun r => r.shortSummary) =
      ["Call ended: customer-ended-call"] ∧
    ¬ ("Call ended: customer-ended-call" = "") := by decide

/-- Claim C7, amended: the empty-analysis `customer-ended-call` event resolves
to `NOT_QUALIFIED` through the defer mapping and the heuristic default, and
the stored summary is the synthesized `"Call ended: {ended_reason}"` text. -/
theorem defer_summary_amended :
    resolveDisposition "customer-ended-call" none = .NOT_QUALIFIED ∧
    lookupReason endedReasonMap "customer-ended-call" = some none ∧
    buildShortSummary "customer-ended-call" none = "Call ended: customer-ended-call" ∧
    (handleEndOfCall p3 db3).map (fun r => r.status) = [Disposition.NOT_QUALIFIED] := by decide

/-- Claim C8: a normal conversational ending defers to the summary heuristic,
and the negation family is scanned before the interest family, so a summary
matching both "not looking" and "looking for" resolves to `NOT_LOOKING`,
not `FAILED` and not `ACTIVE_LOOKING`. -/
theorem heuristic_negation_precedence :
    resolveDisposition "customer-ended-call" (some { summary := sum8 }) = .NOT_LOOKING ∧
    ¬ (Disposition.NOT_LOOKING = .FAILED) ∧
    strContains (toLowerStr sum8) "not looking" = true ∧
    strContains (toLowerStr sum8) "looking for" = true := by decide

/-- Claim C9, counterexample: 100 seconds before the window opens, the sleep
lasts `min(100 + 5, 300) = 105` seconds — five seconds past the computed
next window-open instant, contradicting "never sleeping past the opening
instant". -/
theorem window_sleep_counterexample :
    inCallingWindow 25200 79200 25100 = false ∧
    waitSecondsFor 25200 79200 0 25100 = 100 ∧
    sleepSeconds (waitSecondsFor 25200 79200 0 25100) = 105 ∧
    waitSecondsFor 25200 79200 0 25100 < sleepSeconds (waitSecondsFor 25200 79200 0 25100) := by
  decide

/-- Claim C9, amended: outside the calling window every individual sleep of
`wait_for_calling_window` lasts at most 300 seconds and overshoots the next
window-open instant by at most 5 seconds. -/
theorem window_sleep_bounds (windowStart windowEnd day tod : Int)
    (h : inCallingWindow windowStart windowEnd tod = false) :
    sleepSeconds (waitSecondsFor windowStart windowEnd day tod) ≤ 300 ∧
    sleepSeconds (waitSecondsFor windowStart windowEnd day tod) ≤
      waitSecondsFor windowStart windowEnd day tod + 5 := by
  unfold sleepSeconds
  exact ⟨min_le_right _ _, min_le_left _ _⟩

/-- Claim C9, witness for the amended theorem at the counterexample instant. -/
theorem window_sleep_witness :
    sleepSeconds (waitSecondsFor 25200 79200 0 25100) ≤ 300 ∧
    sleepSeconds (waitSecondsFor 25200 79200 0 25100) ≤
      waitSecondsFor 25200 79200 0 25100 + 5 :=
  window_sleep_bounds 25200 79200 0 25100 (by decide)

/-- Claim C10: when the normalized structured disposition string is non-empty
and not an exact enum value, the fuzzy phase returns the first member in
declaration order related to it by substring containment either way; in
particular `"NOT QUALIFIED - CANDIDATE"` normalizes to
`"NOT_QUALIFIED___CANDIDATE"` and resolves to `QUALIFIED`, not
`NOT_QUALIFIED`. -/
theorem fuzzy_first_match_spec :
    (∀ s : String, normalizeDisp s ≠ "" → fromValue (normalizeDisp s) = none →
        parseDispositionFromAnalysis (some { structuredData := some { disposition := s } }) =
          dispositionList.find? fun d =>
            strContains (normalizeDisp s) (dispValue d) ||
            strContains (dispValue d) (normalizeDisp s)) ∧
    parseDispositionFromAnalysis
        (some { structuredData := some { disposition := "NOT QUALIFIED - CANDIDATE" } }) =
      some .QUALIFIED ∧
    normalizeDisp "NOT QUALIFIED - CANDIDATE" = "NOT_QUALIFIED___CANDIDATE" ∧
    ¬ (Disposition.QUALIFIED = .NOT_QUALIFIED) := by
  refine ⟨?_, by decide, by decide, by decide⟩
  intro s h1 h2
  show (if normalizeDisp s = "" then none
        else
          match fromValue (normalizeDisp s) with
          | some d => some d
          | none =>
            dispositionList.find? fun d =>
              strContains (normalizeDisp s) (dispValue d) ||
              strContains (dispValue d) (normalizeDisp s)) = _
  rw [if_neg h1, h2]

/-- Claim C10, witness for the general first-match characterization at the
concrete near-miss string. -/
theorem fuzzy_first_match_witness :
    parseDispositionFromAnalysis
        (some { structuredData := some { disposition := "NOT QUALIFIED - CANDIDATE" } }) =
      dispositionList.find? (fun d =>
        strContains (normalizeDisp "NOT QUALIFIED - CANDIDATE") (dispValue d) ||
        strContains (dispValue d) (normalizeDisp "NOT QUALIFIED - CANDIDATE")) :=
  fuzzy_first_match_spec.1 "NOT QUALIFIED - CANDIDATE" (by decide) (by decide)
